import Mathlib

/-!
Verification of `upfolder_checker.py`: a tool that scans a directory tree
for git repositories and reports, per repository, which files are staged,
modified-but-unstaged, or untracked, plus aggregate totals.

The embedding works over `List Char` lines, with explicit models of the
Python string primitives the source uses (`str.strip`, `str.startswith`,
substring containment via `in`, `str.lower`, `str.split(sep, 1)`).
-/

/-- Python whitespace characters stripped by `str.strip()` (ASCII subset:
space, tab, newline, carriage return, vertical tab, form feed). -/
def isSpaceChar (c : Char) : Bool :=
  c == ' ' || c == '\t' || c == '\n' || c == '\r' || c == Char.ofNat 11 || c == Char.ofNat 12

/-- Python `str.strip()`: drop whitespace from both ends. -/
def strip (s : List Char) : List Char :=
  ((s.dropWhile isSpaceChar).reverse.dropWhile isSpaceChar).reverse

/-- Python `s.startswith(p)`. -/
def startsWithChars (p s : List Char) : Bool :=
  match p, s with
  | [], _ => true
  | _ :: _, [] => false
  | a :: ps, b :: ss => a == b && startsWithChars ps ss

/-- Python `p in s` (substring containment). -/
def substring (p s : List Char) : Bool :=
  match s with
  | [] => p.isEmpty
  | _ :: t => startsWithChars p s || substring p t

/-- Python `str.lower()` restricted to ASCII letters (the hint patterns the
source compares against are pure ASCII). -/
def asciiLower (c : Char) : Char :=
  if 'A' ≤ c && c ≤ 'Z' then Char.ofNat (c.toNat + 32) else c

/-- Python `c in s` for a single character. -/
def containsChar (c : Char) : List Char → Bool
  | [] => false
  | x :: t => x == c || containsChar c t

/-- Python `s.split(c, 1)` when `c in s`: the part before the first
occurrence of `c` and the part after it. -/
def splitFirst (c : Char) : List Char → List Char × List Char
  | [] => ([], [])
  | x :: t =>
    if x == c then ([], t)
    else
      let p := splitFirst c t
      (x :: p.1, p.2)

/-- Python `output.split(chr(10))`: split into lines at every newline,
keeping empty pieces. -/
def splitOnNl : List Char → List (List Char)
  | [] => [[]]
  | c :: t =>
    if c == '\n' then [] :: splitOnNl t
    else
      match splitOnNl t with
      | [] => [[c]]
      | l :: ls => (c :: l) :: ls

/-- Abbreviation turning a string literal into the character list it embeds. -/
def chars (s : String) : List Char := s.toList

/-! ## The data model of `get_git_status` -/

/-- The three buckets of `status_info` (`modified`, `staged`, `untracked`),
in the order the source dict declares them. -/
structure StatusInfo where
  modified : List (List Char)
  staged : List (List Char)
  untracked : List (List Char)
deriving DecidableEq, Repr

/-- The `current_section` values of the parsing loop. -/
inductive Sec where
  | staged
  | modified
  | untracked
deriving DecidableEq, Repr

/-- The section marker `Changes to be committed:` (source line 61). -/
def mkStaged : List Char := chars "Changes to be committed:"

/-- The section marker `Changes not staged for commit:` (source line 64). -/
def mkModified : List Char := chars "Changes not staged for commit:"

/-- The section marker `Untracked files:` (source line 67). -/
def mkUntracked : List Char := chars "Untracked files:"

/-- The instructional-hint test of source lines 79-81: the lowered line
contains one of the three hint phrases. -/
def isHintLine (line : List Char) : Bool :=
  let low := line.map asciiLower
  substring (chars "use \"git") low ||
  substring (chars "include in what will be committed") low ||
  substring (chars "no changes added") low

/-- Append an entry to the bucket named by `current_section`
(`status_info[current_section].append(...)`). -/
def appendBucket (sec : Sec) (st : StatusInfo) (e : List Char) : StatusInfo :=
  match sec with
  | Sec.modified => StatusInfo.mk (st.modified ++ [e]) st.staged st.untracked
  | Sec.staged => StatusInfo.mk st.modified (st.staged ++ [e]) st.untracked
  | Sec.untracked => StatusInfo.mk st.modified st.staged (st.untracked ++ [e])

/-- Entry extraction of source lines 88-103: strip the line; skip it when
empty or starting with a parenthesis; for `modified`/`staged` split on the
first colon when one is present (the source's `len(parts) == 2` test is
always true after `split(c, 1)` finds the separator) and append
`prefix ++ ": " ++ name` with both parts stripped, otherwise append the
stripped line; for `untracked` append the stripped line. -/
def extractEntry (sec : Sec) (st : StatusInfo) (line : List Char) : StatusInfo :=
  let stripped := strip line
  if stripped.isEmpty || startsWithChars ['('] stripped then st
  else
    match sec with
    | Sec.untracked => appendBucket sec st stripped
    | _ =>
      if containsChar ':' stripped then
        let parts := splitFirst ':' stripped
        appendBucket sec st (strip parts.1 ++ [':', ' '] ++ strip parts.2)
      else appendBucket sec st stripped

/-- One iteration of the parsing loop of `get_git_status` (source lines
59-103): marker detection first; then, when a section is open, the blank
line falls through to extraction (where the empty stripped line produces
nothing), a non-indented line is swallowed when it is a hint and closes the
section otherwise, and an indented line reaches extraction. -/
def processLine (cur : Option Sec) (st : StatusInfo) (line : List Char) :
    Option Sec × StatusInfo :=
  if substring mkStaged line then (some Sec.staged, st)
  else if substring mkModified line then (some Sec.modified, st)
  else if substring mkUntracked line then (some Sec.untracked, st)
  else
    match cur with
    | none => (none, st)
    | some sec =>
      if (strip line).isEmpty then (some sec, extractEntry sec st line)
      else if !startsWithChars ['\t'] line && !startsWithChars [' ', ' '] line then
        if isHintLine line then (some sec, st) else (none, st)
      else (some sec, extractEntry sec st line)

/-- The parsing loop folded over all lines. -/
def runLines (lines : List (List Char)) (acc : Option Sec × StatusInfo) :
    Option Sec × StatusInfo :=
  match lines with
  | [] => acc
  | l :: ls => runLines ls (processLine acc.1 acc.2 l)

/-- The final filter of source lines 105-109: return the accumulated
`status_info` only when some bucket is non-empty, `None` otherwise. -/
def finishStatus (st : StatusInfo) : Option StatusInfo :=
  if st.modified.isEmpty && st.staged.isEmpty && st.untracked.isEmpty then none
  else some st

/-- Parsing of the raw `git status` output (source lines 48-109): split on
newlines, run the loop from an empty `status_info` with no open section,
and return `none` unless some bucket gained an entry. -/
def parseStatusText (out : List Char) : Option StatusInfo :=
  finishStatus (runLines (splitOnNl out) (none, StatusInfo.mk [] [] [])).2

/-- The observable outcome of one `subprocess.run(git status)` invocation:
an exit code and the captured standard output. -/
structure RunResult where
  returncode : Nat
  stdout : List Char
deriving DecidableEq, Repr

/-- `get_git_status` (source lines 33-113): a non-zero exit code returns
`None` before the parser ever runs; otherwise the output is parsed. -/
def get_git_status (r : RunResult) : Option StatusInfo :=
  if r.returncode ≠ 0 then none else parseStatusText r.stdout

/-! ## The directory scan of `scan_directory_for_git_repos` -/

/-- A directory tree: a name, whether the directory can be listed, whether
it contains a `.git` subdirectory (the `is_git_repo` test), and its child
directories. -/
inductive FSTree where
  | dir (name : List Char) (readable : Bool) (hasGit : Bool)
        (children : List FSTree)

/-- Whether the directory can be listed. -/
def FSTree.readable : FSTree → Bool
  | FSTree.dir _ r _ _ => r

/-- The hidden-directory filter of source line 133: the name begins with a
dot. -/
def isDotName : FSTree → Bool
  | FSTree.dir n _ _ _ => startsWithChars ['.'] n

mutual

/-- Visiting one directory during `os.walk` (source lines 122-133, top-down
with the default error handler): an unlistable directory is skipped
silently together with its whole subtree; a directory containing `.git` is
emitted and its children are cleared from the walk (`dirs.clear()`);
otherwise the walk descends into the children that survive the
hidden-directory filter. -/
def scanTree (path : List (List Char)) (t : FSTree) : List (List (List Char)) :=
  match t with
  | FSTree.dir name readable hasGit children =>
    if readable = false then []
    else if hasGit then [path ++ [name]]
    else scanChildren (path ++ [name]) children

/-- The walk over the (filtered) children of a non-repository directory. -/
def scanChildren (path : List (List Char)) (ts : List FSTree) :
    List (List (List Char)) :=
  match ts with
  | [] => []
  | t :: rest => (if isDotName t then [] else scanTree path t) ++ scanChildren path rest

end

/-- `scan_directory_for_git_repos` (source lines 116-142): walk the tree
starting at the given directory and collect repository roots. -/
def scan_directory_for_git_repos (directory : FSTree) : List (List (List Char)) :=
  scanTree [] directory

/-! ## The aggregation loop of `main` -/

/-- The data `main` accumulates over the discovered repositories (source
lines 154-187): the total number of repositories, the status records of the
repositories with changes in discovery order, and the three grand totals. -/
structure Report where
  reposTotal : Nat
  reposWithChanges : List StatusInfo
  totalStaged : Nat
  totalModified : Nat
  totalUntracked : Nat
deriving DecidableEq, Repr

/-- The per-repository loop of `main` (source lines 165-180): every root
counts toward the total; a root whose `get_git_status` is truthy joins
`repos_with_changes` and its bucket lengths join the grand totals. -/
def mainAccum : List RunResult → Report
  | [] => Report.mk 0 [] 0 0 0
  | r :: rs =>
    let rest := mainAccum rs
    match get_git_status r with
    | none =>
      Report.mk (rest.reposTotal + 1) rest.reposWithChanges
        rest.totalStaged rest.totalModified rest.totalUntracked
    | some st =>
      Report.mk (rest.reposTotal + 1) (st :: rest.reposWithChanges)
        (st.staged.length + rest.totalStaged)
        (st.modified.length + rest.totalModified)
        (st.untracked.length + rest.totalUntracked)

/-- Whether a root produced a status record with at least one non-empty
bucket. -/
def hasChangesB (r : RunResult) : Bool :=
  match get_git_status r with
  | none => false
  | some st => !st.modified.isEmpty || !st.staged.isEmpty || !st.untracked.isEmpty

/-- A report identical except that one more (changeless) repository was
counted. -/
def bumpTotal (rep : Report) : Report :=
  Report.mk (rep.reposTotal + 1) rep.reposWithChanges
    rep.totalStaged rep.totalModified rep.totalUntracked

/-- The entry format exactly as the specification words it: if the trimmed
line contains a colon, split at the first colon into a status prefix and a
description, trim both, and join them as the prefix, a colon, a space, and
the description; with no colon, the trimmed line verbatim. Stated with
`takeWhile`/`dropWhile`, independently of the parser's `splitFirst`. -/
def specEntryFormat (s : List Char) : List Char :=
  if containsChar ':' s then
    strip (s.takeWhile fun x => !(x == ':')) ++ [':', ' '] ++
      strip ((s.dropWhile fun x => !(x == ':')).drop 1)
  else s

/-! ## Helper lemmas -/

/-- `splitFirst` splits at the first occurrence of the separator: the left
part is the longest separator-free initial segment and the right part is
everything after the separator. -/
theorem splitFirst_eq_take_drop (c : Char) (s : List Char) :
    splitFirst c s
      = (s.takeWhile (fun x => !(x == c)), (s.dropWhile (fun x => !(x == c))).drop 1) := by
  induction s with
  | nil => rfl
  | cons x t ih =>
    by_cases h : x == c
    · simp [splitFirst, h, List.takeWhile_cons, List.dropWhile_cons]
    · simp [splitFirst, h, List.takeWhile_cons, List.dropWhile_cons, ih]

/-- A status record returned by `finishStatus` has a non-empty bucket. -/
theorem finish_some_has_entry (st0 st : StatusInfo)
    (h : finishStatus st0 = some st) :
    (!st.modified.isEmpty || !st.staged.isEmpty || !st.untracked.isEmpty) = true := by
  unfold finishStatus at h
  split at h
  · exact absurd h (by simp)
  next hc =>
    cases h
    cases hm : st0.modified.isEmpty <;> cases hs : st0.staged.isEmpty <;>
      cases hu : st0.untracked.isEmpty <;> simp_all

/-- A status record returned by `parseStatusText` has a non-empty bucket. -/
theorem parse_some_has_entry (out : List Char) (st : StatusInfo)
    (h : parseStatusText out = some st) :
    (!st.modified.isEmpty || !st.staged.isEmpty || !st.untracked.isEmpty) = true :=
  finish_some_has_entry _ _ h

/-- A status record returned by `get_git_status` makes `hasChangesB` true. -/
theorem hasChangesB_of_some (r : RunResult) (st : StatusInfo)
    (h : get_git_status r = some st) : hasChangesB r = true := by
  unfold hasChangesB
  rw [h]
  unfold get_git_status at h
  split at h
  · exact absurd h (by simp)
  · exact parse_some_has_entry _ _ h

/-- Claim C2: for every input string the status parser is total: it returns
either `none` (no bucket gained an entry) or a record in which at least one
of the three buckets is non-empty; being a total Lean function it cannot
raise, and it never returns a record with all three buckets empty. -/
theorem parser_totality (out : List Char) :
    parseStatusText out = none ∨
    ∃ st, parseStatusText out = some st ∧
      (st.staged ≠ [] ∨ st.modified ≠ [] ∨ st.untracked ≠ []) := by
  cases h : parseStatusText out with
  | none => exact Or.inl rfl
  | some st =>
    refine Or.inr ⟨st, rfl, ?_⟩
    have hb := parse_some_has_entry out st h
    by_contra hall
    push_neg at hall
    simp [hall.1, hall.2.1, hall.2.2] at hb

/-- Claim C1: on the six-line input of the spec's section-boundary test the
parser yields exactly one modified entry and one untracked entry: the blank
line does not merge the sections and the parenthetical hint line produces
no entry. -/
theorem section_boundary_example :
    parseStatusText (chars "Changes not staged for commit:\n  (use \"git add <file>...\" to update what will be committed)\n\tmodified:   a.txt\n\nUntracked files:\n\tb.txt")
      = some (StatusInfo.mk [chars "modified: a.txt"] [] [chars "b.txt"]) := by
  decide

/-- Claim C3: every entry line of a staged or modified section is split on
the first colon into a trimmed prefix and description joined by a colon and
a space, or appended verbatim when no colon is present; in particular a tab
indented modified line and a colon-free line behave as the spec's two
examples state. -/
theorem entry_colon_splitting :
    (∀ (line : List Char) (sec : Sec) (st : StatusInfo),
      sec ≠ Sec.untracked →
      substring mkStaged line = false →
      substring mkModified line = false →
      substring mkUntracked line = false →
      (startsWithChars ['\t'] line || startsWithChars [' ', ' '] line) = true →
      (strip line).isEmpty = false →
      startsWithChars ['('] (strip line) = false →
      processLine (some sec) st line =
        (some sec, appendBucket sec st (specEntryFormat (strip line)))) ∧
    parseStatusText (chars "Changes not staged for commit:\n\tmodified:   src/main.go\n\trenamed file without colon")
      = some (StatusInfo.mk
          [chars "modified: src/main.go", chars "renamed file without colon"] [] []) := by
  constructor
  · intro line sec st hsec h1 h2 h3 hind hne hpar
    have hb : (!startsWithChars ['\t'] line && !startsWithChars [' ', ' '] line) = false := by
      rcases Bool.or_eq_true_iff.mp hind with h | h <;> simp [h]
    simp only [processLine, h1, h2, h3, Bool.false_eq_true, if_false, hne, hb]
    cases sec with
    | untracked => exact absurd rfl hsec
    | staged =>
      by_cases hcol : containsChar ':' (strip line) = true <;>
        simp [extractEntry, specEntryFormat, hne, hpar, hcol, splitFirst_eq_take_drop]
    | modified =>
      by_cases hcol : containsChar ':' (strip line) = true <;>
        simp [extractEntry, specEntryFormat, hne, hpar, hcol, splitFirst_eq_take_drop]
  · decide

/-- Witness for C3: the tab-indented line `modified:   src/main.go` under
an open modified section is appended in the spec's first-colon format. -/
theorem entry_colon_splitting_witness :
    processLine (some Sec.modified) (StatusInfo.mk [] [] [])
        (chars "\tmodified:   src/main.go")
      = (some Sec.modified,
         appendBucket Sec.modified (StatusInfo.mk [] [] [])
           (specEntryFormat (strip (chars "\tmodified:   src/main.go")))) :=
  entry_colon_splitting.1 (chars "\tmodified:   src/main.go") Sec.modified
    (StatusInfo.mk [] [] []) (by decide) (by decide) (by decide) (by decide)
    (by decide) (by decide) (by decide)

/-- Claim C6: a line containing exactly one of the three section marker
phrases — anywhere in the line, whatever indentation or decoration
surrounds it and whichever section (if any) is open — sets the current
section to the corresponding bucket and emits no entry. -/
theorem marker_sets_section (line : List Char) (cur : Option Sec) (st : StatusInfo) :
    (substring mkStaged line = true → substring mkModified line = false →
      substring mkUntracked line = false →
      processLine cur st line = (some Sec.staged, st)) ∧
    (substring mkModified line = true → substring mkStaged line = false →
      substring mkUntracked line = false →
      processLine cur st line = (some Sec.modified, st)) ∧
    (substring mkUntracked line = true → substring mkStaged line = false →
      substring mkModified line = false →
      processLine cur st line = (some Sec.untracked, st)) := by
  refine ⟨?_, ?_, ?_⟩ <;> intro ha hb hc <;> simp [processLine, ha, hb, hc]

/-- Witness for C6: a decorated, indented untracked marker read while the
staged section is open switches to the untracked section without an entry. -/
theorem marker_sets_section_witness :
    processLine (some Sec.staged) (StatusInfo.mk [] [] []) (chars "  ** Untracked files: **")
      = (some Sec.untracked, StatusInfo.mk [] [] []) :=
  (marker_sets_section (chars "  ** Untracked files: **") (some Sec.staged)
      (StatusInfo.mk [] [] [])).2.2 (by decide) (by decide) (by decide)

/-- Claim C7: while a section is open, a non-blank line that starts neither
with a tab nor with two literal spaces is a boundary line: it never
produces an entry, and it closes the section unless it matches a hint
pattern, in which case the section stays open. -/
theorem boundary_line_closes_section (line : List Char) (sec : Sec) (st : StatusInfo)
    (h1 : substring mkStaged line = false) (h2 : substring mkModified line = false)
    (h3 : substring mkUntracked line = false)
    (hne : (strip line).isEmpty = false)
    (ht : startsWithChars ['\t'] line = false)
    (hs : startsWithChars [' ', ' '] line = false) :
    processLine (some sec) st line =
      ((if isHintLine line then some sec else none), st) := by
  simp only [processLine, h1, h2, h3, Bool.false_eq_true, if_false, hne, ht, hs]
  cases hh : isHintLine line <;> simp [hh]

/-- Witness for C7: a line indented by exactly one space closes the open
untracked section with no entry, and a one-space-indented hint line leaves
the modified section open with no entry. -/
theorem boundary_line_closes_section_witness :
    processLine (some Sec.untracked) (StatusInfo.mk [] [] []) (chars " x.txt")
      = ((if isHintLine (chars " x.txt") then some Sec.untracked else none),
         StatusInfo.mk [] [] []) ∧
    processLine (some Sec.modified) (StatusInfo.mk [] [] [])
        (chars " no changes added to commit")
      = ((if isHintLine (chars " no changes added to commit") then some Sec.modified
          else none), StatusInfo.mk [] [] []) :=
  ⟨boundary_line_closes_section _ Sec.untracked _ (by decide) (by decide) (by decide)
      (by decide) (by decide) (by decide),
   boundary_line_closes_section _ Sec.modified _ (by decide) (by decide) (by decide)
      (by decide) (by decide) (by decide)⟩

/-- Claim C10: the hint filter only sees lines that do not start with a tab
or two spaces; an indented, non-blank, non-parenthesis line with no marker
phrase becomes an entry of the open section even when it contains one of
the hint phrases. -/
theorem indented_hint_line_is_entry (line : List Char) (sec : Sec) (st : StatusInfo)
    (h1 : substring mkStaged line = false) (h2 : substring mkModified line = false)
    (h3 : substring mkUntracked line = false)
    (hind : (startsWithChars ['\t'] line || startsWithChars [' ', ' '] line) = true)
    (hne : (strip line).isEmpty = false)
    (hpar : startsWithChars ['('] (strip line) = false)
    ( _hhint : isHintLine line = true) :
    ∃ e, processLine (some sec) st line = (some sec, appendBucket sec st e) := by
  have hb : (!startsWithChars ['\t'] line && !startsWithChars [' ', ' '] line) = false := by
    rcases Bool.or_eq_true_iff.mp hind with h | h <;> simp [h]
  simp only [processLine, h1, h2, h3, Bool.false_eq_true, if_false, hne, hb]
  cases sec with
  | untracked =>
    refine ⟨strip line, ?_⟩
    simp [extractEntry, hne, hpar]
  | staged =>
    by_cases hcol : containsChar ':' (strip line) = true
    · refine ⟨strip (splitFirst ':' (strip line)).1 ++ [':', ' '] ++
        strip (splitFirst ':' (strip line)).2, ?_⟩
      simp [extractEntry, hne, hpar, hcol]
    · refine ⟨strip line, ?_⟩
      simp [extractEntry, hne, hpar, hcol]
  | modified =>
    by_cases hcol : containsChar ':' (strip line) = true
    · refine ⟨strip (splitFirst ':' (strip line)).1 ++ [':', ' '] ++
        strip (splitFirst ':' (strip line)).2, ?_⟩
      simp [extractEntry, hne, hpar, hcol]
    · refine ⟨strip line, ?_⟩
      simp [extractEntry, hne, hpar, hcol]

/-- Witness for C10: a tab-indented line containing the hint phrase `no
changes added` is still captured as an entry of the open modified section. -/
theorem indented_hint_line_is_entry_witness :
    ∃ e, processLine (some Sec.modified) (StatusInfo.mk [] [] [])
        (chars "\tno changes added yet")
      = (some Sec.modified, appendBucket Sec.modified (StatusInfo.mk [] [] []) e) :=
  indented_hint_line_is_entry (chars "\tno changes added yet") Sec.modified
    (StatusInfo.mk [] [] []) (by decide) (by decide) (by decide) (by decide)
    (by decide) (by decide) (by decide)

/-- Claim C9: over any run, the reported repository total equals the number
of discovered roots, the changed-repository count equals the number of
roots whose status parsed to a record with a non-empty bucket, and each
grand total is the sum of the corresponding bucket lengths over exactly
those records. -/
theorem aggregate_totals (results : List RunResult) :
    (mainAccum results).reposTotal = results.length ∧
    (mainAccum results).reposWithChanges.length
      = (results.filter hasChangesB).length ∧
    (mainAccum results).totalStaged
      = ((results.filterMap get_git_status).map fun st => st.staged.length).sum ∧
    (mainAccum results).totalModified
      = ((results.filterMap get_git_status).map fun st => st.modified.length).sum ∧
    (mainAccum results).totalUntracked
      = ((results.filterMap get_git_status).map fun st => st.untracked.length).sum := by
  induction results with
  | nil => exact ⟨rfl, rfl, rfl, rfl, rfl⟩
  | cons r rs ih =>
    obtain ⟨ih1, ih2, ih3, ih4, ih5⟩ := ih
    cases h : get_git_status r with
    | none =>
      have hb : hasChangesB r = false := by unfold hasChangesB; rw [h]
      simp [mainAccum, h, hb, List.filter_cons, List.filterMap_cons,
        ih1, ih2, ih3, ih4, ih5]
    | some st =>
      have hb : hasChangesB r = true := hasChangesB_of_some r st h
      simp [mainAccum, h, hb, List.filter_cons, List.filterMap_cons,
        ih1, ih2, ih3, ih4, ih5]

/-- Claim C5: an unlistable directory is silently skipped: it contributes
no roots, and a walk whose children include it still yields exactly the
roots found under the readable siblings, before and after it alike. -/
theorem unreadable_dir_skipped (path : List (List Char)) (pre post : List FSTree)
    (u : FSTree) (hu : u.readable = false) :
    scanTree path u = [] ∧
    scanChildren path (pre ++ u :: post)
      = scanChildren path pre ++ scanChildren path post := by
  have hz : scanTree path u = [] := by
    cases u with
    | dir n r g c =>
      simp only [FSTree.readable] at hu
      simp [scanTree, hu]
  refine ⟨hz, ?_⟩
  induction pre with
  | nil => simp [scanChildren, hz]
  | cons t ts ih => simp [scanChildren, ih]

/-- Witness for C5: with an unreadable middle sibling (holding a repository
that is therefore invisible), the scan still returns the repositories of
the two readable siblings. -/
theorem unreadable_dir_skipped_witness :
    scanTree [] (FSTree.dir (chars "bad") false true [])  = [] ∧
    scanChildren [] ([FSTree.dir (chars "g1") true true []]
        ++ FSTree.dir (chars "bad") false true
            [FSTree.dir (chars "inner") true true []]
          :: [FSTree.dir (chars "g2") true true []])
      = scanChildren [] [FSTree.dir (chars "g1") true true []]
        ++ scanChildren [] [FSTree.dir (chars "g2") true true []] :=
  unreadable_dir_skipped [] [FSTree.dir (chars "g1") true true []]
    [FSTree.dir (chars "g2") true true []]
    (FSTree.dir (chars "bad") false true [FSTree.dir (chars "inner") true true []])
    (by decide)

/-- Claim C8: a directory that contains the `.git` marker is emitted as a
repository root and its children are never traversed, whatever they hold;
in particular the spec's tree root/A/.git with root/A/B/.git yields exactly
root/A. -/
theorem discovery_non_descent :
    (∀ (path : List (List Char)) (name : List Char) (children : List FSTree),
      scanTree path (FSTree.dir name true true children) = [path ++ [name]]) ∧
    scan_directory_for_git_repos
      (FSTree.dir (chars "root") true false
        [FSTree.dir (chars "A") true true [FSTree.dir (chars "B") true true []]])
      = [[chars "root", chars "A"]] := by
  refine ⟨?_, by decide⟩
  intro path name children
  simp [scanTree]

/-- Inserting a root with no status record anywhere in the run bumps the
total repository count and changes nothing else in the report. -/
theorem mainAccum_insert_none (pre post : List RunResult) (r : RunResult)
    (h : get_git_status r = none) :
    mainAccum (pre ++ r :: post) = bumpTotal (mainAccum (pre ++ post)) := by
  induction pre with
  | nil => simp [mainAccum, h, bumpTotal]
  | cons x xs ih =>
    cases hx : get_git_status x <;> simp [mainAccum, hx, ih, bumpTotal]

/-- Counterexample to C4 as stated: a root whose status invocation failed
is not recorded distinctly from a clean root — `get_git_status` and the
whole aggregation give a failed root and a clean root identical outcomes,
so the code records no 'status unavailable' state distinct from 'clean'. -/
theorem failed_root_equals_clean_root :
    get_git_status (RunResult.mk 1 (chars "On branch main"))
      = get_git_status (RunResult.mk 0 (chars "On branch main")) ∧
    get_git_status (RunResult.mk 1 (chars "On branch main")) = none ∧
    mainAccum [RunResult.mk 1 (chars "On branch main")]
      = mainAccum [RunResult.mk 0 (chars "On branch main")] := by
  decide

/-- Claim C4 (amended): for every root whose status invocation exits
non-zero the parser is never applied — the result is `none` whatever text
the invocation captured — and the root is excluded from the
changed-repository count and from all three totals while still counted
among the discovered repositories, the run continuing over the remaining
roots; the code gives such a root no record distinct from a clean root. -/
theorem failed_invocation_behavior (c : Nat) (out out' : List Char)
    (pre post : List RunResult) (hc : c ≠ 0) :
    get_git_status (RunResult.mk c out) = none ∧
    get_git_status (RunResult.mk c out) = get_git_status (RunResult.mk c out') ∧
    mainAccum (pre ++ RunResult.mk c out :: post)
      = bumpTotal (mainAccum (pre ++ post)) := by
  have h : get_git_status (RunResult.mk c out) = none := by
    simp [get_git_status, hc]
  have h' : get_git_status (RunResult.mk c out') = none := by
    simp [get_git_status, hc]
  exact ⟨h, h.trans h'.symm, mainAccum_insert_none pre post _ h⟩

/-- Witness for the amended C4: a root whose invocation exited with code 2
parses to nothing and only bumps the repository total of a run that also
contains a root with one untracked file. -/
theorem failed_invocation_behavior_witness :
    get_git_status (RunResult.mk 2 (chars "fatal: not a git repository")) = none ∧
    get_git_status (RunResult.mk 2 (chars "fatal: not a git repository"))
      = get_git_status (RunResult.mk 2 (chars "boom")) ∧
    mainAccum ([] ++ RunResult.mk 2 (chars "fatal: not a git repository")
        :: [RunResult.mk 0 (chars "Untracked files:\n\ta.txt")])
      = bumpTotal (mainAccum ([] ++ [RunResult.mk 0 (chars "Untracked files:\n\ta.txt")])) :=
  failed_invocation_behavior 2 (chars "fatal: not a git repository") (chars "boom")
    [] [RunResult.mk 0 (chars "Untracked files:\n\ta.txt")] (by decide)
